import Mathlib

/-!
Formal model of the `TilePrefetcher` core from `src/prefetch.js` of
geolonia/geolonia-map-preload.

The JavaScript is embedded shallowly:
* JS integer arithmetic on tile indices is modelled with `Int`
  (`x % t` is the truncated remainder `Int.tmod`, `Math.floor(x/2)` on an
  integer-valued quotient is floor division `Int.fdiv`);
* the `for (let v = lo; v <= hi; v++)` loops become folds over `intRange lo hi`;
* JS `Set` insertion-ordered deduplicated collections of URLs are lists with
  insert-if-absent (`addURL`); the `_inflight` `Set` is a `Finset String`;
* the `styledata`/`moveend`/timer machinery of the class becomes explicit
  state passing over `PrefState`;
* the remote TileJSON lookup (`_fetchTileJSON`) is an oracle
  `String → Option (List TVal)`, `none` standing for a rejected fetch
  (network error or non-ok HTTP status);
* JSON values appearing in template arrays are `TVal` (`str` for strings,
  `other` for any non-string entry, matching the string filter applied to
  `templates` at the end of `_resolveTemplates`).
-/

/-- JS `%` on integers is the truncated remainder (sign follows the dividend). -/
def jsMod (a b : Int) : Int := Int.tmod a b

/-- `wrapX` from the source: `(x)=>((x%t)+t)%t` with `t = 2**z`. -/
def wrapX (t x : Int) : Int := jsMod (jsMod x t + t) t

/-- `clampY` from the source: `(y)=>Math.max(0,Math.min(t-1,y))`. -/
def clampY (t y : Int) : Int := max 0 (min (t - 1) y)

/-- The integers enumerated by `for (let v = lo; v <= hi; v++)`. -/
def intRange (lo hi : Int) : List Int :=
  (List.range (hi - lo + 1).toNat).map (fun i : Nat => lo + (i : Int))

/-- The `inside` test of `_collectNeighborsTiles`:
`x>=minX && x<=maxX && y>=minY && y<=maxY`. -/
def insideRange (minX maxX minY maxY x y : Int) : Prop :=
  minX ≤ x ∧ x ≤ maxX ∧ minY ≤ y ∧ y ≤ maxY

instance insideRangeDec (minX maxX minY maxY x y : Int) :
    Decidable (insideRange minX maxX minY maxY x y) :=
  inferInstanceAs (Decidable (_ ∧ _ ∧ _ ∧ _))

/-- `_collectNeighborsTiles(z, minX, minY, maxX, maxY, n)`: scan the rectangle
expanded by `n` on each side, skip raw indices inside the unexpanded
rectangle, and push the wrap/clamp-normalized index of every remaining raw
index. -/
def collectNeighborsTiles (z : Nat) (minX minY maxX maxY : Int) (n : Nat) :
    List (Int × Int) :=
  (intRange (minX - n) (maxX + n)).flatMap fun x =>
    (intRange (minY - n) (maxY + n)).filterMap fun y =>
      if insideRange minX maxX minY maxY x y then none
      else some (wrapX (2 ^ z) x, clampY (2 ^ z) y)

/-- The `tilesAtZ` list built by `_visibleTileRange`: every raw index pair in
the floored viewport rectangle, wrap/clamp-normalized.  The four arguments are
the already-floored `vxMinX`, `vxMaxX`, `vyMinY`, `vyMaxY` (arbitrary
integers, since they are floors of unconstrained float conversions). -/
def tilesAtZ (z : Nat) (vxMinX vxMaxX vyMinY vyMaxY : Int) : List (Int × Int) :=
  (intRange vxMinX vxMaxX).flatMap fun x =>
    (intRange vyMinY vyMaxY).map fun y => (wrapX (2 ^ z) x, clampY (2 ^ z) y)

/-- One ancestor step chain: `for (let k=0;k<d;k++){ px = Math.floor(px/2); }`. -/
def halveIter (x : Int) : Nat → Int
  | 0 => x
  | d + 1 => halveIter (x.fdiv 2) d

/-- Substring test over characters, modelling JS `String.prototype.includes`. -/
def containsSubL (pat : List Char) : List Char → Bool
  | [] => pat.isPrefixOf []
  | c :: cs => pat.isPrefixOf (c :: cs) || containsSubL pat cs

/-- Replace the first occurrence of `pat` (JS `String.prototype.replace` with a
string pattern replaces only the leftmost match). -/
def replaceFirstL (pat rep : List Char) : List Char → List Char
  | [] => if pat.isPrefixOf ([] : List Char) then rep else []
  | c :: cs =>
    if pat.isPrefixOf (c :: cs) then rep ++ (c :: cs).drop pat.length
    else c :: replaceFirstL pat rep cs

/-- JS `tmpl.includes(pat)` on strings. -/
def containsSub (s pat : String) : Bool := containsSubL pat.toList s.toList

/-- JS `s.replace(pat, rep)` (first occurrence only) on strings. -/
def replaceFirst (s pat rep : String) : String :=
  String.mk (replaceFirstL pat.toList rep.toList s.toList)

/-- `_tileURL(tmpl, z, x, y)`: `null` when a placeholder is missing, otherwise
the template with the first occurrence of each placeholder substituted by the
decimal rendering of the coordinate. -/
def tileURL (tmpl : String) (z x y : Int) : Option String :=
  if ¬ (containsSub tmpl "{z}" ∧ containsSub tmpl "{x}" ∧ containsSub tmpl "{y}")
  then none
  else some (replaceFirst (replaceFirst (replaceFirst tmpl "{z}" (toString z))
    "{x}" (toString x)) "{y}" (toString y))

/-- `urls.add(u)` on the insertion-ordered JS `Set` (no-op for `null` and for
an already-present URL). -/
def addURL (urls : List String) : Option String → List String
  | none => urls
  | some u => if u ∈ urls then urls else urls ++ [u]

/-- The neighbor phase of `_prefetchNow`: for every collected neighbor tile and
every template, add the expanded URL to the URL set. -/
def neighborURLs (z : Nat) (minX minY maxX maxY : Int) (n : Nat)
    (templates : List String) (urls : List String) : List String :=
  (collectNeighborsTiles z minX minY maxX maxY n).foldl
    (fun acc p => templates.foldl
      (fun acc2 tmpl => addURL acc2 (tileURL tmpl z p.1 p.2)) acc) urls

/-- The `tmp` set of one parent depth: ancestor index of every visible tile,
deduplicated in insertion order (the source keys `tmp` by the string
`"pz/px/py"`; with `pz` fixed per depth this is equivalent to keying by the
index pair). -/
def parentTmp (tiles : List (Int × Int)) (d : Nat) : List (Int × Int) :=
  tiles.foldl (fun acc p =>
    let q := (halveIter p.1 d, halveIter p.2 d)
    if q ∈ acc then acc else acc ++ [q]) []

/-- Processing of one parent key: `parentSet.add(key)` followed by URL
expansion against every template. -/
def parentStep (templates : List String) (pz : Int)
    (acc : List String × List (Int × Int × Int)) (p : Int × Int) :
    List String × List (Int × Int × Int) :=
  (templates.foldl (fun u tmpl => addURL u (tileURL tmpl pz p.1 p.2)) acc.1,
   if (pz, p.1, p.2) ∈ acc.2 then acc.2 else acc.2 ++ [(pz, p.1, p.2)])

/-- The `for (let d = 1; d <= levels; d++)` loop of `_prefetchNow` with its
`if (pz < 0) break;`, restated as structural recursion on the number `rem` of
remaining iterations (`rem = levels - d + 1` at entry).  Returns the URL set,
the accumulated `parentSet`, and the list of depths that were processed. -/
def parentLoop (z : Nat) (templates : List String) (tiles : List (Int × Int)) :
    Nat → Nat → List String → List (Int × Int × Int) →
    List String × List (Int × Int × Int) × List Nat
  | 0, _, urls, parents => (urls, parents, [])
  | rem + 1, d, urls, parents =>
    if (z : Int) - d < 0 then (urls, parents, [])
    else
      let st := (parentTmp tiles d).foldl (parentStep templates ((z : Int) - d))
        (urls, parents)
      let r := parentLoop z templates tiles rem (d + 1) st.1 st.2
      (r.1, r.2.1, d :: r.2.2)

/-- The deduplicated, filtered, capped URL list of one `_prefetchNow` cycle:
`[...urls].filter(this.opts.shouldPrefetch).slice(0, this.opts.maxRequestsPerMove)`.
`minX`–`maxY` are the floored raw bounds of `_visibleTileRange`. -/
def candidateList (z : Nat) (minX maxX minY maxY : Int) (templates : List String)
    (neighbors levels : Nat) (pred : String → Bool) (cap : Nat) : List String :=
  let urls1 :=
    if 0 < neighbors then neighborURLs z minX minY maxX maxY neighbors templates []
    else []
  let r := parentLoop z templates (tilesAtZ z minX maxX minY maxY) levels 1 urls1 []
  (r.1.filter pred).take cap

/-- The fetch-issuing loop of `_prefetchNow`: skip URLs already in flight, add
the URL to `_inflight` immediately before issuing its fetch.  The trace records
every issued fetch together with the in-flight set at the moment of issuance
(just before the `add`). -/
def prefetchLoop (inflight : Finset String) :
    List String → Finset String × List (String × Finset String)
  | [] => (inflight, [])
  | u :: rest =>
    if u ∈ inflight then prefetchLoop inflight rest
    else
      let r := prefetchLoop (insert u inflight) rest
      (r.1, (u, inflight) :: r.2)

/-- Settlement of one fetch: `.catch(()=>{}).finally(()=>this._inflight.delete(u))`.
The `succeeded` flag is ignored — removal is unconditional. -/
def settleFetch (inflight : Finset String) (u : String) (succeeded : Bool) :
    Finset String :=
  inflight.erase u

/-- A full candidate-computation-plus-issue cycle (steps 3–6 of `_prefetchNow`),
for an already-resolved template list. -/
def prefetchCycle (z : Nat) (minX maxX minY maxY : Int) (templates : List String)
    (neighbors levels : Nat) (pred : String → Bool) (cap : Nat)
    (inflight : Finset String) : Finset String × List (String × Finset String) :=
  prefetchLoop inflight
    (candidateList z minX maxX minY maxY templates neighbors levels pred cap)

/-- A JSON value found in a `tiles` template array: a string, or anything
else (filtered out by the string filter at the end of `_resolveTemplates`). -/
inductive TVal where
  | str : String → TVal
  | other : TVal
deriving DecidableEq

/-- One entry of `style.sources`: the source id, its `tiles` array (`[]` when
absent or empty) and its optional `url` TileJSON descriptor. -/
structure Src where
  id : String
  tiles : List TVal
  url : Option String
deriving DecidableEq

/-- The string filter applied to `templates` at the end of `_resolveTemplates`. -/
def strTVal : TVal → Option String
  | .str s => some s
  | .other => none

/-- `_resolveTemplates`, with the remote `_fetchTileJSON` as an oracle
(`none` = the fetch rejected).  State is the `_tilejsonCache` association list;
the third component logs, in order, the source ids for which a remote lookup
was performed.  Mirrors the source: a nonempty `tiles` array is used directly;
otherwise a truthy string `url` consults the cache, and on a miss performs one
lookup — caching the result only on success (`this._tilejsonCache.set` is
skipped when `_fetchTileJSON` throws). -/
def resolveTemplates (oracle : String → Option (List TVal)) :
    List Src → List (String × List TVal) →
    List TVal × List (String × List TVal) × List String
  | [], cache => ([], cache, [])
  | s :: rest, cache =>
    if s.tiles ≠ [] then
      let r := resolveTemplates oracle rest cache
      (s.tiles ++ r.1, r.2)
    else
      match s.url with
      | none => resolveTemplates oracle rest cache
      | some u =>
        if u = "" then resolveTemplates oracle rest cache
        else
          match cache.lookup s.id with
          | some entry =>
            let r := resolveTemplates oracle rest cache
            (entry ++ r.1, r.2)
          | none =>
            match oracle u with
            | some ts =>
              let r := resolveTemplates oracle rest (cache ++ [(s.id, ts)])
              (ts ++ r.1, r.2.1, s.id :: r.2.2)
            | none =>
              let r := resolveTemplates oracle rest cache
              (r.1, r.2.1, s.id :: r.2.2)

/-- The `this._templates` value after `_resolveTemplates`: the concatenated
template entries with non-strings filtered out. -/
def resolvedTemplates (oracle : String → Option (List TVal)) (srcs : List Src)
    (cache : List (String × List TVal)) : List String :=
  (resolveTemplates oracle srcs cache).1.filterMap strTVal

/-- The mutable fields of a `TilePrefetcher` relevant to its lifecycle:
attached listeners, pending debounce timer, `_inflight`, `_tilejsonCache`
and `_templates`. -/
structure PrefState where
  moveendOn : Bool
  styledataOn : Bool
  timerPending : Bool
  inflight : Finset String
  cache : List (String × List TVal)
  templates : List String

/-- The live map as observed by a cycle: its style sources, the TileJSON
oracle, the clamped floored zoom, and the floored raw visible tile bounds. -/
structure MapEnv where
  sources : List Src
  oracle : String → Option (List TVal)
  z : Nat
  minX : Int
  maxX : Int
  minY : Int
  maxY : Int

/-- The configuration bundle `this.opts` (the fields a cycle reads). -/
structure Opts where
  neighbors : Nat
  zoomOutLevels : Nat
  maxRequestsPerMove : Nat
  shouldPrefetch : String → Bool

/-- `destroy()`: detach `moveend` and `styledata`, clear `_inflight`,
`_tilejsonCache` and `_templates`.  The source has no `clearTimeout`, so a
pending debounce timer is left untouched. -/
def destroy (s : PrefState) : PrefState :=
  { s with moveendOn := false, styledataOn := false, inflight := ∅,
           cache := [], templates := [] }

/-- `_onMoveEnd()`: `clearTimeout` of any pending timer followed by a fresh
`setTimeout` — the net state effect is that a timer is pending. -/
def onMoveEnd (s : PrefState) : PrefState :=
  { s with timerPending := true }

/-- `_prefetchNow()`: when `_templates` is empty, re-run template resolution
first and abort the cycle if it still yields nothing; otherwise run one
candidate-and-fetch cycle.  Returns the updated state and the issued-fetch
trace. -/
def prefetchNow (o : Opts) (env : MapEnv) (s : PrefState) :
    PrefState × List (String × Finset String) :=
  let rc :=
    if s.templates = [] then
      let r := resolveTemplates env.oracle env.sources s.cache
      (r.1.filterMap strTVal, r.2.1)
    else (s.templates, s.cache)
  if rc.1 = [] then ({ s with templates := rc.1, cache := rc.2 }, [])
  else
    let r := prefetchCycle env.z env.minX env.maxX env.minY env.maxY rc.1
      o.neighbors o.zoomOutLevels o.shouldPrefetch o.maxRequestsPerMove
      s.inflight
    ({ s with templates := rc.1, cache := rc.2, inflight := r.1 }, r.2)

/-- Firing of the debounce timer scheduled by `_onMoveEnd`: if a timer is
pending it is consumed and `_prefetchNow` runs against the live map. -/
def timerFire (o : Opts) (env : MapEnv) (s : PrefState) :
    PrefState × List (String × Finset String) :=
  if s.timerPending then prefetchNow o env { s with timerPending := false }
  else (s, [])

/-! ## Arithmetic helper lemmas -/

theorem tmod_gt_neg (x t : Int) (ht : 0 < t) : -t < Int.tmod x t := by
  rcases x with m | m
  · have h0 : 0 ≤ Int.tmod (Int.ofNat m) t :=
      Int.tmod_nonneg t (Int.ofNat_nonneg m)
    omega
  · rcases t with n | n
    · have h : Int.tmod (Int.negSucc m) (Int.ofNat n) =
          -(Int.ofNat ((m + 1) % n)) := rfl
      rw [h]
      have hn : 0 < n := by
        simp only [Int.ofNat_eq_coe] at ht
        exact_mod_cast ht
      have hlt := Nat.mod_lt (m + 1) hn
      simp only [Int.ofNat_eq_coe]
      omega
    · have h2 : Int.negSucc n < 0 := Int.negSucc_lt_zero n
      omega

theorem wrapX_emod (t x : Int) (ht : 0 < t) : wrapX t x = x % t := by
  have h1 : -t < Int.tmod x t := tmod_gt_neg x t ht
  unfold wrapX jsMod
  rw [Int.tmod_eq_emod (by omega) (by omega)]
  have h2 : (Int.tmod x t + t) % t = Int.tmod x t % t := by
    simpa using Int.add_mul_emod_self_left (Int.tmod x t) t 1
  rw [h2, Int.tmod_def, sub_eq_add_neg, ← mul_neg]
  exact Int.add_mul_emod_self_left x t (-(x.tdiv t))

theorem wrapX_bounds (t x : Int) (ht : 0 < t) : 0 ≤ wrapX t x ∧ wrapX t x < t := by
  rw [wrapX_emod t x ht]
  exact ⟨Int.emod_nonneg x (by omega), Int.emod_lt_of_pos x ht⟩

theorem clampY_bounds (t y : Int) (ht : 0 < t) :
    0 ≤ clampY t y ∧ clampY t y ≤ t - 1 := by
  unfold clampY
  refine ⟨le_max_left 0 _, max_le (by omega) (min_le_left _ _)⟩

theorem mem_intRange {a lo hi : Int} : a ∈ intRange lo hi ↔ lo ≤ a ∧ a ≤ hi := by
  unfold intRange
  rw [List.mem_map]
  constructor
  · rintro ⟨i, hmem, rfl⟩
    rw [List.mem_range] at hmem
    omega
  · rintro ⟨h1, h2⟩
    refine ⟨(a - lo).toNat, ?_, by omega⟩
    rw [List.mem_range]
    omega

/-! ## C1: ring-neighbor enumeration -/

/-- C1 (as stated, refuted): the claim asserts that every produced
(wrap/clamp-normalized) ring tile lies outside the unexpanded rectangle.  At
`z = 0` with the rectangle `[0,0] × [0,0]` and `n = 1`, every raw neighbor
normalizes to `(0,0)`, which is inside the rectangle. -/
theorem ring_tile_inside_after_wrap_cex :
    (0, 0) ∈ collectNeighborsTiles 0 0 0 0 0 1 ∧
    insideRange 0 0 0 0 0 0 := by
  decide

/-- C1 (amended): every tile produced by `_collectNeighborsTiles` is the
wrap/clamp normalization of a raw index of the expanded rectangle that is not
inside the original unexpanded rectangle (the normalized index itself may fall
back inside); and for `n = 0` the enumeration produces nothing. -/
theorem ring_tiles_from_outside_raw :
    (∀ (z : Nat) (minX minY maxX maxY : Int) (n : Nat) (p : Int × Int),
      p ∈ collectNeighborsTiles z minX minY maxX maxY n →
      ∃ x y : Int,
        (minX - n ≤ x ∧ x ≤ maxX + n ∧ minY - n ≤ y ∧ y ≤ maxY + n) ∧
        ¬ insideRange minX maxX minY maxY x y ∧
        p = (wrapX (2 ^ z) x, clampY (2 ^ z) y)) ∧
    (∀ (z : Nat) (minX minY maxX maxY : Int),
      collectNeighborsTiles z minX minY maxX maxY 0 = []) := by
  constructor
  · intro z minX minY maxX maxY n p hp
    unfold collectNeighborsTiles at hp
    rw [List.mem_flatMap] at hp
    obtain ⟨x, hx, hp⟩ := hp
    rw [List.mem_filterMap] at hp
    obtain ⟨y, hy, hv⟩ := hp
    rw [mem_intRange] at hx hy
    by_cases hc : insideRange minX maxX minY maxY x y
    · rw [if_pos hc] at hv
      exact Option.noConfusion hv
    · rw [if_neg hc] at hv
      exact ⟨x, y, ⟨hx.1, hx.2, hy.1, hy.2⟩, hc, (Option.some.inj hv).symm⟩
  · intro z minX minY maxX maxY
    apply List.eq_nil_iff_forall_not_mem.mpr
    intro p hp
    unfold collectNeighborsTiles at hp
    rw [List.mem_flatMap] at hp
    obtain ⟨x, hx, hp⟩ := hp
    rw [List.mem_filterMap] at hp
    obtain ⟨y, hy, hv⟩ := hp
    rw [mem_intRange] at hx hy
    have hc : insideRange minX maxX minY maxY x y := by
      unfold insideRange
      refine ⟨by omega, by omega, by omega, by omega⟩
    rw [if_pos hc] at hv
    exact Option.noConfusion hv

/-- C1 (witness): the amended theorem applied at `z = 2`, rectangle
`[0,0] × [0,0]`, `n = 1`, produced tile `(3,0)` (the normalization of raw
`(-1,-1)`). -/
theorem ring_tiles_from_outside_raw_wit :
    ((3, 0) ∈ collectNeighborsTiles 2 0 0 0 0 1) ∧
    (∃ x y : Int,
      ((0 : Int) - (1 : Nat) ≤ x ∧ x ≤ (0 : Int) + (1 : Nat) ∧
       (0 : Int) - (1 : Nat) ≤ y ∧ y ≤ (0 : Int) + (1 : Nat)) ∧
      ¬ insideRange 0 0 0 0 x y ∧
      ((3 : Int), (0 : Int)) = (wrapX (2 ^ 2) x, clampY (2 ^ 2) y)) :=
  ⟨by decide, ring_tiles_from_outside_raw.1 2 0 0 0 0 1 (3, 0) (by decide)⟩

/-! ## C5: visible-range normalization -/

/-- C5: every tile in `tilesAtZ` of `_visibleTileRange` is wrap/clamp
normalized into `[0, 2^z − 1]` on both axes, for any integer raw floored
bounds; and at zoom 1 raw `x = -1` wraps to `1` while raw `y = -1` clamps
to `0`. -/
theorem visibleRange_normalized :
    (∀ (z : Nat), z ≤ 22 → ∀ (vxMinX vxMaxX vyMinY vyMaxY : Int) (p : Int × Int),
      p ∈ tilesAtZ z vxMinX vxMaxX vyMinY vyMaxY →
      0 ≤ p.1 ∧ p.1 ≤ 2 ^ z - 1 ∧ 0 ≤ p.2 ∧ p.2 ≤ 2 ^ z - 1) ∧
    wrapX (2 ^ 1) (-1) = 1 ∧ clampY (2 ^ 1) (-1) = 0 := by
  refine ⟨?_, by decide, by decide⟩
  intro z hz vxMinX vxMaxX vyMinY vyMaxY p hp
  unfold tilesAtZ at hp
  rw [List.mem_flatMap] at hp
  obtain ⟨x, hx, hp⟩ := hp
  rw [List.mem_map] at hp
  obtain ⟨y, hy, rfl⟩ := hp
  have ht : (0 : Int) < 2 ^ z := by positivity
  obtain ⟨hw1, hw2⟩ := wrapX_bounds (2 ^ z) x ht
  obtain ⟨hc1, hc2⟩ := clampY_bounds (2 ^ z) y ht
  dsimp only
  exact ⟨hw1, by omega, hc1, hc2⟩

/-- C5 (witness): the normalization theorem applied at zoom 1 to the raw
range `[-1,0] × [-1,0]`, whose produced tile `(1,0)` is in bounds. -/
theorem visibleRange_normalized_wit :
    (1 : Nat) ≤ 22 ∧ ((1, 0) ∈ tilesAtZ 1 (-1) 0 (-1) 0) ∧
    (0 ≤ ((1 : Int), (0 : Int)).1 ∧ ((1 : Int), (0 : Int)).1 ≤ 2 ^ 1 - 1 ∧
     0 ≤ ((1 : Int), (0 : Int)).2 ∧ ((1 : Int), (0 : Int)).2 ≤ 2 ^ 1 - 1) :=
  ⟨by decide, by decide,
   visibleRange_normalized.1 1 (by decide) (-1) 0 (-1) 0 (1, 0) (by decide)⟩

/-! ## C7: chained halving -/

theorem halveIter_natCast : ∀ (d m : Nat), halveIter (m : Int) d = ((m / 2 ^ d : Nat) : Int)
  | 0, m => by simp [halveIter]
  | d + 1, m => by
    have hh : ((m : Int)).fdiv 2 = ((m / 2 : Nat) : Int) := by
      rw [Int.fdiv_eq_ediv _ (by omega)]
      exact_mod_cast (Int.ofNat_ediv m 2).symm
    rw [halveIter, hh, halveIter_natCast d (m / 2)]
    congr 1
    rw [Nat.div_div_eq_div_mul, pow_succ, Nat.mul_comm]

/-- C7: applying `Math.floor(·/2)` `d` successive times to a non-negative
integer equals a single floor division by `2^d`; and tile `(5,10,10)` has the
depth-1 ancestor `(4,5,5)` and depth-2 ancestor `(3,2,2)` in the parent set
computed by the depth loop. -/
theorem halving_eq_single_div :
    (∀ (x : Int) (d : Nat), 0 ≤ x → 1 ≤ d → halveIter x d = x.fdiv (2 ^ d)) ∧
    (parentLoop 5 [] [(10, 10)] 2 1 [] []).2.1 = [(4, 5, 5), (3, 2, 2)] := by
  constructor
  · intro x d hx _
    obtain ⟨m, rfl⟩ := Int.eq_ofNat_of_zero_le hx
    rw [halveIter_natCast]
    rw [Int.fdiv_eq_ediv _ (by positivity)]
    have h2 : ((2 : Int)) ^ d = ((2 ^ d : Nat) : Int) := by push_cast; ring
    rw [h2]
    exact Int.ofNat_ediv m (2 ^ d)
  · decide

/-- C7 (witness): the halving identity applied at `x = 10`, `d = 2`. -/
theorem halving_eq_single_div_wit :
    0 ≤ (10 : Int) ∧ 1 ≤ 2 ∧ halveIter 10 2 = (10 : Int).fdiv (2 ^ 2) :=
  ⟨by decide, by decide, halving_eq_single_div.1 10 2 (by decide) (by decide)⟩

/-! ## C6: ancestor depth iteration -/

theorem parentStep_fold_mem (templates : List String) (pz : Int) :
    ∀ (l : List (Int × Int)) (acc : List String × List (Int × Int × Int))
      (q : Int × Int × Int),
      q ∈ (l.foldl (parentStep templates pz) acc).2 → q ∈ acc.2 ∨ q.1 = pz
  | [], _, _, h => Or.inl h
  | p :: l, acc, q, h => by
    rcases parentStep_fold_mem templates pz l (parentStep templates pz acc p) q h with
      hmem | hpz
    · unfold parentStep at hmem
      dsimp only at hmem
      by_cases hin : (pz, p.1, p.2) ∈ acc.2
      · rw [if_pos hin] at hmem
        exact Or.inl hmem
      · rw [if_neg hin] at hmem
        rcases List.mem_append.mp hmem with h1 | h2
        · exact Or.inl h1
        · rcases List.mem_singleton.mp h2 with rfl
          exact Or.inr rfl
    · exact Or.inr hpz

theorem parentLoop_depths (z : Nat) (templates : List String)
    (tiles : List (Int × Int)) :
    ∀ (rem d : Nat) (urls : List String) (parents : List (Int × Int × Int)),
      (parentLoop z templates tiles rem d urls parents).2.2 =
        List.range' d (min rem (z + 1 - d))
  | 0, d, urls, parents => by simp [parentLoop]
  | rem + 1, d, urls, parents => by
    by_cases hzd : (z : Int) - d < 0
    · have hd : z + 1 - d = 0 := by omega
      rw [parentLoop, if_pos hzd, hd]
      simp
    · have hd : d ≤ z := by omega
      have hmin : min (rem + 1) (z + 1 - d) = min rem (z - d) + 1 := by omega
      simp only [parentLoop, if_neg hzd]
      rw [parentLoop_depths z templates tiles rem (d + 1) _ _]
      rw [hmin, List.range'_succ]
      congr 2
      omega

theorem parentLoop_parents_nonneg (z : Nat) (templates : List String)
    (tiles : List (Int × Int)) :
    ∀ (rem d : Nat) (urls : List String) (parents : List (Int × Int × Int)),
      (∀ q ∈ parents, 0 ≤ q.1) →
      ∀ q ∈ (parentLoop z templates tiles rem d urls parents).2.1, 0 ≤ q.1
  | 0, d, urls, parents, hp, q, hq => hp q hq
  | rem + 1, d, urls, parents, hp, q, hq => by
    by_cases hzd : (z : Int) - d < 0
    · rw [parentLoop, if_pos hzd] at hq
      exact hp q hq
    · rw [parentLoop, if_neg hzd] at hq
      refine parentLoop_parents_nonneg z templates tiles rem (d + 1) _ _ ?_ q hq
      intro r hr
      rcases parentStep_fold_mem templates ((z : Int) - d) (parentTmp tiles d)
          (urls, parents) r hr with hmem | hpz
      · exact hp r hmem
      · omega

/-- C6: the depth loop of `_prefetchNow` processes depths `1, 2, …` in
increasing order and stops at the first depth `d` with `z − d < 0` — the
processed depths are exactly `1 .. min(levels, z)` — and every entry added to
the parent set has a non-negative zoom. -/
theorem ancestors_depth_stop :
    ∀ (z levels : Nat) (templates : List String) (tiles : List (Int × Int))
      (urls : List String),
      (parentLoop z templates tiles levels 1 urls []).2.2 =
        List.range' 1 (min levels z) ∧
      (∀ q ∈ (parentLoop z templates tiles levels 1 urls []).2.1, 0 ≤ q.1) := by
  intro z levels templates tiles urls
  constructor
  · rw [parentLoop_depths z templates tiles levels 1 urls []]
    congr 1
  · exact parentLoop_parents_nonneg z templates tiles levels 1 urls [] (by simp)

/-- C6 (witness): the depth-loop theorem applied at `z = 3`, `levels = 5`,
visible tile `(5,5)`: depths `[1,2,3]` are processed and the parent entry
`(2,2,2)` has non-negative zoom. -/
theorem ancestors_depth_stop_wit :
    (parentLoop 3 [] [(5, 5)] 5 1 [] []).2.2 = List.range' 1 (min 5 3) ∧
    ((2, 2, 2) ∈ (parentLoop 3 [] [(5, 5)] 5 1 [] []).2.1) ∧
    0 ≤ ((2 : Int), (2 : Int), (2 : Int)).1 :=
  ⟨(ancestors_depth_stop 3 5 [] [(5, 5)] []).1, by decide,
   (ancestors_depth_stop 3 5 [] [(5, 5)] []).2 (2, 2, 2) (by decide)⟩

/-! ## C2, C3, C4: the fetch-issuing loop -/

theorem prefetchLoop_trace_pre :
    ∀ (l : List String) (inflight : Finset String),
      ∀ p ∈ (prefetchLoop inflight l).2, p.1 ∉ p.2
  | [], inflight => by simp [prefetchLoop]
  | u :: rest, inflight => by
    by_cases h : u ∈ inflight
    · rw [prefetchLoop, if_pos h]
      exact prefetchLoop_trace_pre rest inflight
    · rw [prefetchLoop, if_neg h]
      intro p hp
      rcases List.mem_cons.mp hp with rfl | hm
      · exact h
      · exact prefetchLoop_trace_pre rest (insert u inflight) p hm

theorem prefetchLoop_final_eq :
    ∀ (l : List String) (inflight : Finset String),
      (prefetchLoop inflight l).1 =
        inflight ∪ ((prefetchLoop inflight l).2.map Prod.fst).toFinset
  | [], inflight => by simp [prefetchLoop]
  | u :: rest, inflight => by
    by_cases h : u ∈ inflight
    · rw [prefetchLoop, if_pos h]
      exact prefetchLoop_final_eq rest inflight
    · rw [prefetchLoop, if_neg h]
      dsimp only
      rw [prefetchLoop_final_eq rest (insert u inflight)]
      ext a
      simp only [Finset.mem_union, Finset.mem_insert, List.mem_toFinset,
        List.map_cons, List.mem_cons]
      tauto

theorem prefetchLoop_issued_not_mem :
    ∀ (l : List String) (inflight : Finset String) (u : String),
      u ∈ (prefetchLoop inflight l).2.map Prod.fst → u ∉ inflight
  | [], inflight, u => by simp [prefetchLoop]
  | v :: rest, inflight, u => by
    by_cases h : v ∈ inflight
    · rw [prefetchLoop, if_pos h]
      exact prefetchLoop_issued_not_mem rest inflight u
    · rw [prefetchLoop, if_neg h]
      dsimp only [List.map_cons]
      intro hm
      rcases List.mem_cons.mp hm with rfl | hm2
      · exact h
      · intro hin
        exact prefetchLoop_issued_not_mem rest (insert v inflight) u hm2
          (Finset.mem_insert_of_mem hin)

theorem prefetchLoop_issued_nodup :
    ∀ (l : List String) (inflight : Finset String),
      ((prefetchLoop inflight l).2.map Prod.fst).Nodup
  | [], inflight => by simp [prefetchLoop]
  | u :: rest, inflight => by
    by_cases h : u ∈ inflight
    · rw [prefetchLoop, if_pos h]
      exact prefetchLoop_issued_nodup rest inflight
    · rw [prefetchLoop, if_neg h]
      dsimp only [List.map_cons]
      refine List.nodup_cons.mpr ⟨?_, prefetchLoop_issued_nodup rest (insert u inflight)⟩
      intro hmem
      exact prefetchLoop_issued_not_mem rest (insert u inflight) u hmem
        (Finset.mem_insert_self u inflight)

theorem prefetchLoop_subset :
    ∀ (l : List String) (inflight : Finset String),
      inflight ⊆ (prefetchLoop inflight l).1
  | [], inflight => by simp [prefetchLoop]
  | u :: rest, inflight => by
    by_cases h : u ∈ inflight
    · rw [prefetchLoop, if_pos h]
      exact prefetchLoop_subset rest inflight
    · rw [prefetchLoop, if_neg h]
      exact fun a ha =>
        prefetchLoop_subset rest (insert u inflight) (Finset.mem_insert_of_mem ha)

theorem prefetchLoop_mem_final :
    ∀ (l : List String) (inflight : Finset String) (u : String),
      u ∈ l → u ∈ (prefetchLoop inflight l).1
  | [], _, _, h => absurd h (List.not_mem_nil _)
  | v :: rest, inflight, u, h => by
    by_cases hv : v ∈ inflight
    · rw [prefetchLoop, if_pos hv]
      rcases List.mem_cons.mp h with rfl | hm
      · exact prefetchLoop_subset rest inflight hv
      · exact prefetchLoop_mem_final rest inflight u hm
    · rw [prefetchLoop, if_neg hv]
      rcases List.mem_cons.mp h with rfl | hm
      · exact prefetchLoop_subset rest (insert u inflight)
          (Finset.mem_insert_self u inflight)
      · exact prefetchLoop_mem_final rest (insert v inflight) u hm

theorem prefetchLoop_all_inflight :
    ∀ (l : List String) (inflight : Finset String),
      (∀ u ∈ l, u ∈ inflight) → (prefetchLoop inflight l).2 = []
  | [], inflight, _ => rfl
  | u :: rest, inflight, h => by
    rw [prefetchLoop, if_pos (h u (List.mem_cons_self u rest))]
    exact prefetchLoop_all_inflight rest inflight
      (fun v hv => h v (List.mem_cons_of_mem u hv))

theorem prefetchLoop_length_le :
    ∀ (l : List String) (inflight : Finset String),
      (prefetchLoop inflight l).2.length ≤ l.length
  | [], inflight => by simp [prefetchLoop]
  | u :: rest, inflight => by
    by_cases h : u ∈ inflight
    · rw [prefetchLoop, if_pos h]
      exact Nat.le_succ_of_le (prefetchLoop_length_le rest inflight)
    · rw [prefetchLoop, if_neg h]
      exact Nat.succ_le_succ (prefetchLoop_length_le rest (insert u inflight))

/-- C2: every fetch issued by the loop of `_prefetchNow` is for a URL not in
`_inflight` at the moment of issuance (the trace records that set); the final
in-flight set is the initial one plus exactly the issued URLs (added
immediately before their fetches); no URL is issued twice in a cycle; and
settlement removes the URL unconditionally, whether the fetch succeeded or
failed. -/
theorem inflight_invariant :
    ∀ (inflight : Finset String) (l : List String),
      (∀ p ∈ (prefetchLoop inflight l).2, p.1 ∉ p.2) ∧
      (prefetchLoop inflight l).1 =
        inflight ∪ ((prefetchLoop inflight l).2.map Prod.fst).toFinset ∧
      ((prefetchLoop inflight l).2.map Prod.fst).Nodup ∧
      (∀ (s : Finset String) (u : String) (ok : Bool), u ∉ settleFetch s u ok) :=
  fun inflight l =>
    ⟨prefetchLoop_trace_pre l inflight, prefetchLoop_final_eq l inflight,
     prefetchLoop_issued_nodup l inflight,
     fun s u _ => Finset.not_mem_erase u s⟩

/-- C2 (witness): the invariant applied to `_inflight = {"a"}` and candidate
list `["a", "b"]`: the only issued fetch is `"b"`, recorded against the
in-flight set `{"a"}` it was not in. -/
theorem inflight_invariant_wit :
    (("b", ({"a"} : Finset String)) ∈ (prefetchLoop {"a"} ["a", "b"]).2) ∧
    "b" ∉ ({"a"} : Finset String) :=
  ⟨by decide, (inflight_invariant {"a"} ["a", "b"]).1 ("b", {"a"}) (by decide)⟩

/-- C3: the candidate URL list of a cycle is a pure function of the viewport
range, templates and options (so an unchanged viewport and template list give
the same candidate set on a re-run), and a second cycle run against the
in-flight set left by the first (no settlements in between) issues no fetch at
all — in particular none for a URL still in flight. -/
theorem cycle_idempotent :
    ∀ (z : Nat) (minX maxX minY maxY : Int) (templates : List String)
      (neighbors levels : Nat) (pred : String → Bool) (cap : Nat)
      (inflight : Finset String),
      candidateList z minX maxX minY maxY templates neighbors levels pred cap =
        candidateList z minX maxX minY maxY templates neighbors levels pred cap ∧
      (prefetchCycle z minX maxX minY maxY templates neighbors levels pred cap
        (prefetchCycle z minX maxX minY maxY templates neighbors levels pred cap
          inflight).1).2 = [] := by
  intro z minX maxX minY maxY templates neighbors levels pred cap inflight
  refine ⟨rfl, ?_⟩
  unfold prefetchCycle
  apply prefetchLoop_all_inflight
  intro u hu
  exact prefetchLoop_mem_final _ _ u hu

/-- C4: a cycle issues at most `maxRequestsPerMove` fetches: the candidate
list is capped by `take` after the predicate filter, and the loop issues at
most one fetch per list entry. -/
theorem cycle_request_cap :
    ∀ (z : Nat) (minX maxX minY maxY : Int) (templates : List String)
      (neighbors levels : Nat) (pred : String → Bool) (cap : Nat)
      (inflight : Finset String),
      (prefetchCycle z minX maxX minY maxY templates neighbors levels pred cap
        inflight).2.length ≤ cap := by
  intro z minX maxX minY maxY templates neighbors levels pred cap inflight
  unfold prefetchCycle
  refine le_trans (prefetchLoop_length_le _ _) ?_
  unfold candidateList
  rw [List.length_take]
  exact min_le_left _ _

/-! ## C8, C9: template resolution and the TileJSON cache -/

theorem lookup_append_left {cache : List (String × List TVal)} {k : String}
    (h : (cache.lookup k).isSome) (l : List (String × List TVal)) :
    ((cache ++ l).lookup k).isSome := by
  induction cache with
  | nil => simp [List.lookup] at h
  | cons e cache ih =>
    rcases e with ⟨k2, v⟩
    simp only [List.cons_append, List.lookup] at h ⊢
    cases hk : (k == k2) with
    | false =>
      rw [hk] at h
      simpa using ih (by simpa using h)
    | true => simp

theorem lookup_append_self {cache : List (String × List TVal)} {k : String}
    (h : cache.lookup k = none) (v : List TVal) :
    ((cache ++ [(k, v)]).lookup k) = some v := by
  induction cache with
  | nil => simp [List.lookup]
  | cons e cache ih =>
    rcases e with ⟨k2, v2⟩
    simp only [List.cons_append, List.lookup] at h ⊢
    cases hk : (k == k2) with
    | false =>
      rw [hk] at h
      simpa using ih (by simpa using h)
    | true =>
      rw [hk] at h
      exact Option.noConfusion h

theorem resolve_cache_mono (oracle : String → Option (List TVal)) :
    ∀ (srcs : List Src) (cache : List (String × List TVal)) (k : String),
      (cache.lookup k).isSome →
      (((resolveTemplates oracle srcs cache).2.1).lookup k).isSome
  | [], cache, k, h => h
  | s :: rest, cache, k, h => by
    rw [resolveTemplates]
    by_cases ht : s.tiles ≠ []
    · rw [if_pos ht]
      exact resolve_cache_mono oracle rest cache k h
    · rw [if_neg ht]
      cases hurl : s.url with
      | none => exact resolve_cache_mono oracle rest cache k h
      | some u =>
        dsimp only
        by_cases hu : u = ""
        · rw [if_pos hu]
          exact resolve_cache_mono oracle rest cache k h
        · rw [if_neg hu]
          cases hc : List.lookup s.id cache with
          | some entry => exact resolve_cache_mono oracle rest cache k h
          | none =>
            cases ho : oracle u with
            | some ts =>
              exact resolve_cache_mono oracle rest (cache ++ [(s.id, ts)]) k
                (lookup_append_left h _)
            | none => exact resolve_cache_mono oracle rest cache k h

theorem resolve_no_lookup_of_cached (oracle : String → Option (List TVal)) :
    ∀ (srcs : List Src) (cache : List (String × List TVal)) (k : String),
      (cache.lookup k).isSome →
      k ∉ (resolveTemplates oracle srcs cache).2.2
  | [], _, _, _ => List.not_mem_nil _
  | s :: rest, cache, k, h => by
    rw [resolveTemplates]
    by_cases ht : s.tiles ≠ []
    · rw [if_pos ht]
      exact resolve_no_lookup_of_cached oracle rest cache k h
    · rw [if_neg ht]
      cases hurl : s.url with
      | none => exact resolve_no_lookup_of_cached oracle rest cache k h
      | some u =>
        dsimp only
        by_cases hu : u = ""
        · rw [if_pos hu]
          exact resolve_no_lookup_of_cached oracle rest cache k h
        · rw [if_neg hu]
          cases hc : List.lookup s.id cache with
          | some entry => exact resolve_no_lookup_of_cached oracle rest cache k h
          | none =>
            have hne : k ≠ s.id := by
              intro heq
              rw [heq, hc] at h
              simp at h
            cases ho : oracle u with
            | some ts =>
              intro hmem
              rcases List.mem_cons.mp hmem with heq | hmem2
              · exact hne heq
              · exact resolve_no_lookup_of_cached oracle rest
                  (cache ++ [(s.id, ts)]) k (lookup_append_left h _) hmem2
            | none =>
              intro hmem
              rcases List.mem_cons.mp hmem with heq | hmem2
              · exact hne heq
              · exact resolve_no_lookup_of_cached oracle rest cache k h hmem2

/-- C8 (counterexample): a source whose TileJSON lookup fails is looked up
again by the next resolution of the same style generation — the failing
lookup is not cached, so both resolutions log a remote lookup for source
`"a"`, contradicting "at most one remote lookup per source identifier,
including when the lookup fails". -/
theorem resolver_failed_lookup_retried_cex :
    (resolveTemplates (fun _ => none) [⟨"a", [], some "https://t"⟩] []).2.2 =
      ["a"] ∧
    (resolveTemplates (fun _ => none) [⟨"a", [], some "https://t"⟩]
      ((resolveTemplates (fun _ => none)
        [⟨"a", [], some "https://t"⟩] []).2.1)).2.2 = ["a"] := by
  decide

/-- C8 (amended): within one style generation, a source with a cache entry is
never looked up again — and a *successful* lookup (even one returning an empty
template list) installs a cache entry; a *failed* lookup installs nothing, so
such a source is looked up again on the next resolution (see the
counterexample). -/
theorem resolver_single_lookup_amended :
    (∀ (oracle : String → Option (List TVal)) (srcs : List Src)
      (cache : List (String × List TVal)) (k : String),
      (cache.lookup k).isSome →
      k ∉ (resolveTemplates oracle srcs cache).2.2) ∧
    (∀ (oracle : String → Option (List TVal)) (k u : String) (ts : List TVal)
      (rest : List Src) (cache : List (String × List TVal)),
      u ≠ "" → cache.lookup k = none → oracle u = some ts →
      (((resolveTemplates oracle (⟨k, [], some u⟩ :: rest) cache).2.1).lookup
        k).isSome) := by
  constructor
  · intro oracle srcs cache k h
    exact resolve_no_lookup_of_cached oracle srcs cache k h
  · intro oracle k u ts rest cache hu hc ho
    rw [resolveTemplates]
    simp only [if_neg hu, hc, ho]
    rw [if_neg (by simp : ¬(([] : List TVal) ≠ []))]
    exact resolve_cache_mono oracle rest (cache ++ [(k, ts)]) k
      (by rw [lookup_append_self hc ts]; rfl)

/-- C8 (witness): the amended theorem applied to a source `"a"` whose lookup
succeeds with an empty template list (cached, never looked up again) and to a
pre-cached source (no lookup logged). -/
theorem resolver_single_lookup_amended_wit :
    (("https://t" : String) ≠ "" ∧
     (([] : List (String × List TVal)).lookup "a") = none ∧
     (fun (_ : String) => some ([] : List TVal)) "https://t" = some [] ∧
     (((resolveTemplates (fun _ => some []) [⟨"a", [], some "https://t"⟩]
        []).2.1).lookup "a").isSome) ∧
    ((([("a", ([] : List TVal))].lookup "a").isSome) ∧
     "a" ∉ (resolveTemplates (fun _ => some [])
        [⟨"a", [], some "https://t"⟩] [("a", [])]).2.2) :=
  ⟨⟨by decide, rfl, rfl,
    resolver_single_lookup_amended.2 (fun _ => some []) "a" "https://t" [] []
      [] (by decide) rfl rfl⟩,
   ⟨by decide,
    resolver_single_lookup_amended.1 (fun _ => some [])
      [⟨"a", [], some "https://t"⟩] [("a", [])] "a" (by decide)⟩⟩

/-- C9: a source whose TileJSON lookup fails contributes zero templates and
leaves the cache unchanged; resolution of the remaining sources proceeds
exactly as if the failing source were absent. -/
theorem resolver_failure_isolated :
    ∀ (oracle : String → Option (List TVal)) (k u : String) (rest : List Src)
      (cache : List (String × List TVal)),
      u ≠ "" → cache.lookup k = none → oracle u = none →
      (resolveTemplates oracle (⟨k, [], some u⟩ :: rest) cache).1 =
        (resolveTemplates oracle rest cache).1 ∧
      (resolveTemplates oracle (⟨k, [], some u⟩ :: rest) cache).2.1 =
        (resolveTemplates oracle rest cache).2.1 := by
  intro oracle k u rest cache hu hc ho
  rw [resolveTemplates]
  simp only [if_neg hu, hc, ho]
  rw [if_neg (by simp : ¬(([] : List TVal) ≠ []))]
  exact ⟨rfl, rfl⟩

/-- C9 (witness): the isolation theorem applied to an unreachable source
`"bad"` followed by a reachable source `"good"` carrying a direct template
list — the resolved output equals the resolution of `"good"` alone. -/
theorem resolver_failure_isolated_wit :
    (("https://bad/tile.json" : String) ≠ "" ∧
     (([] : List (String × List TVal)).lookup "bad") = none ∧
     (fun (_ : String) => (none : Option (List TVal))) "https://bad/tile.json" =
       none) ∧
    ((resolveTemplates (fun _ => none)
        [⟨"bad", [], some "https://bad/tile.json"⟩,
         ⟨"good", [TVal.str "https://x/{z}/{x}/{y}.pbf"], none⟩] []).1 =
      (resolveTemplates (fun _ => none)
        [⟨"good", [TVal.str "https://x/{z}/{x}/{y}.pbf"], none⟩] []).1 ∧
     (resolveTemplates (fun _ => none)
        [⟨"bad", [], some "https://bad/tile.json"⟩,
         ⟨"good", [TVal.str "https://x/{z}/{x}/{y}.pbf"], none⟩] []).2.1 =
      (resolveTemplates (fun _ => none)
        [⟨"good", [TVal.str "https://x/{z}/{x}/{y}.pbf"], none⟩] []).2.1) :=
  ⟨⟨by decide, rfl, rfl⟩,
   resolver_failure_isolated (fun _ => none) "bad" "https://bad/tile.json"
     [⟨"good", [TVal.str "https://x/{z}/{x}/{y}.pbf"], none⟩] []
     (by decide) rfl rfl⟩

/-! ## C10: destroy and the pending debounce timer -/

/-- C10: `destroy()` detaches both listeners and clears the in-flight set, the
TileJSON cache and the template list, but leaves a debounce timer scheduled by
an earlier `moveend` pending; when that timer fires, one more `_prefetchNow`
runs: because the template list was cleared it re-resolves templates against
the live map style (from the cleared cache), and — as the concrete instance
shows — it can issue fetches after `destroy()`. -/
theorem destroy_timer_not_cancelled :
    (∀ (s : PrefState) (o : Opts) (env : MapEnv),
      (destroy (onMoveEnd s)).moveendOn = false ∧
      (destroy (onMoveEnd s)).styledataOn = false ∧
      (destroy (onMoveEnd s)).inflight = ∅ ∧
      (destroy (onMoveEnd s)).cache = [] ∧
      (destroy (onMoveEnd s)).templates = [] ∧
      (destroy (onMoveEnd s)).timerPending = true ∧
      (timerFire o env (destroy (onMoveEnd s))).1.templates =
        resolvedTemplates env.oracle env.sources []) ∧
    (timerFire ⟨1, 1, 160, fun _ => true⟩
      ⟨[⟨"g", [TVal.str "https://a/{z}/{x}/{y}.pbf"], none⟩], fun _ => none,
        0, 0, 0, 0, 0⟩
      (destroy (onMoveEnd ⟨true, true, false, ∅, [], []⟩))).2 ≠ [] := by
  constructor
  · intro s o env
    refine ⟨rfl, rfl, rfl, rfl, rfl, rfl, ?_⟩
    simp only [timerFire, prefetchNow, resolvedTemplates, destroy, onMoveEnd,
      if_true]
    split
    · rfl
    · rfl
  · decide

/-- C3 (witness): the idempotence theorem at a concrete zoom-0 viewport with
one template: the second run issues nothing. -/
theorem cycle_idempotent_wit :
    candidateList 0 0 0 0 0 ["https://a/{z}/{x}/{y}.pbf"] 1 1 (fun _ => true)
      160 =
      candidateList 0 0 0 0 0 ["https://a/{z}/{x}/{y}.pbf"] 1 1 (fun _ => true)
        160 ∧
    (prefetchCycle 0 0 0 0 0 ["https://a/{z}/{x}/{y}.pbf"] 1 1 (fun _ => true)
      160 (prefetchCycle 0 0 0 0 0 ["https://a/{z}/{x}/{y}.pbf"] 1 1
        (fun _ => true) 160 ∅).1).2 = [] :=
  cycle_idempotent 0 0 0 0 0 ["https://a/{z}/{x}/{y}.pbf"] 1 1 (fun _ => true)
    160 ∅

/-- C4 (witness): the cap theorem at a concrete zoom-0 viewport with one
template and cap 160. -/
theorem cycle_request_cap_wit :
    (prefetchCycle 0 0 0 0 0 ["https://a/{z}/{x}/{y}.pbf"] 1 1 (fun _ => true)
      160 ∅).2.length ≤ 160 :=
  cycle_request_cap 0 0 0 0 0 ["https://a/{z}/{x}/{y}.pbf"] 1 1 (fun _ => true)
    160 ∅

/-- C10 (witness): the destroy theorem at a concrete state and map: the timer
is still pending after destroy and the fired cycle re-resolves templates. -/
theorem destroy_timer_not_cancelled_wit :
    (destroy (onMoveEnd (⟨true, true, false, ∅, [], []⟩ : PrefState))).timerPending
      = true ∧
    (timerFire (⟨1, 1, 160, fun _ => true⟩ : Opts)
      (⟨[⟨"g", [TVal.str "https://a/{z}/{x}/{y}.pbf"], none⟩], fun _ => none,
        0, 0, 0, 0, 0⟩ : MapEnv)
      (destroy (onMoveEnd ⟨true, true, false, ∅, [], []⟩))).1.templates =
      resolvedTemplates (fun _ => none)
        [⟨"g", [TVal.str "https://a/{z}/{x}/{y}.pbf"], none⟩] [] :=
  ⟨(destroy_timer_not_cancelled.1 ⟨true, true, false, ∅, [], []⟩
      ⟨1, 1, 160, fun _ => true⟩
      ⟨[⟨"g", [TVal.str "https://a/{z}/{x}/{y}.pbf"], none⟩], fun _ => none,
        0, 0, 0, 0, 0⟩).2.2.2.2.2.1,
   (destroy_timer_not_cancelled.1 ⟨true, true, false, ∅, [], []⟩
      ⟨1, 1, 160, fun _ => true⟩
      ⟨[⟨"g", [TVal.str "https://a/{z}/{x}/{y}.pbf"], none⟩], fun _ => none,
        0, 0, 0, 0, 0⟩).2.2.2.2.2.2⟩
